import Mathlib

/-!
Verification of `prep_MHD.py`, a tool that derives MHD simulation run
parameters (mean magnetic field, dump cadences, maximum run time) from
Mach numbers and rewrites the matching lines of a FLASH parameter file.

The numeric layer (`compute_B0`, `compute_turnover_time_parameters`) is
embedded over the real numbers, idealising Python floats.  The text layer
models lines as `List Char`; Python's `str.find` is embedded as `pyFind`
(first index of a character, `-1` when absent) and `pyFindSub` (first
index of a substring, `-1` when absent), and the line-rewriting methods
of class `UpdateFlashParameterFile` are translated method by method.
-/

namespace PrepMHD

/-- Embedding of `UpdateFlashParameterFile.compute_B0` (prep_MHD.py lines
74-77): `B0 = 2*c_s*np.sqrt(rho_0*np.pi) * self.mach / self.mach_alfven`
with `rho_0 = 1` and `c_s = 1`. -/
noncomputable def compute_B0 (mach mach_alfven : ℝ) : ℝ :=
  let rho_0 : ℝ := 1
  let c_s : ℝ := 1
  2 * c_s * Real.sqrt (rho_0 * Real.pi) * mach / mach_alfven

/-- The six numeric fields set by
`UpdateFlashParameterFile.compute_turnover_time_parameters`. -/
structure TurnoverTimes where
  tmax : ℝ
  checkpointFileIntervalTime : ℝ
  plotFileIntervalTime : ℝ
  movie_dt_dump : ℝ
  particleFileIntervalTime : ℝ
  dtmax : ℝ

/-- Embedding of `UpdateFlashParameterFile.compute_turnover_time_parameters`
(prep_MHD.py lines 79-85), one `let` per assignment statement. -/
noncomputable def compute_turnover_time_parameters
    (mach driving_scale dumps_per_turnover total_turn_overs : ℝ) :
    TurnoverTimes :=
  let tmax := total_turn_overs / (driving_scale * mach)
  let checkpointFileIntervalTime := tmax / (total_turn_overs * dumps_per_turnover)
  let plotFileIntervalTime := checkpointFileIntervalTime
  let movie_dt_dump := plotFileIntervalTime / 10
  let particleFileIntervalTime := movie_dt_dump
  let dtmax := movie_dt_dump / 2
  ⟨tmax, checkpointFileIntervalTime, plotFileIntervalTime,
   movie_dt_dump, particleFileIntervalTime, dtmax⟩

/-- C1: for every mach > 0 and machAlfven > 0 the derived mean field is
`B0 = 2 · c_s · sqrt(ρ0 · π) · mach / machAlfven` with `ρ0 = c_s = 1`,
i.e. `B0 = 2 · sqrt(π) · mach / machAlfven`; at mach = 10,
machAlfven = 1 the value is 35.4491 to within 0.001. -/
theorem B0_formula :
    (∀ mach mach_alfven : ℝ, 0 < mach → 0 < mach_alfven →
      compute_B0 mach mach_alfven = 2 * Real.sqrt Real.pi * mach / mach_alfven) ∧
    |compute_B0 10 1 - 35.4491| < 1 / 1000 := by
  constructor
  · intro mach mach_alfven _ _
    simp [compute_B0]
  · have hlo : (1.772405 : ℝ) < Real.sqrt Real.pi := by
      rw [Real.lt_sqrt (by norm_num)]
      nlinarith [Real.pi_gt_d6]
    have hhi : Real.sqrt Real.pi < (1.772505 : ℝ) := by
      rw [Real.sqrt_lt' (by norm_num)]
      nlinarith [Real.pi_lt_d6]
    have hB : compute_B0 10 1 = 2 * Real.sqrt Real.pi * 10 / 1 := by
      simp [compute_B0]
    rw [hB, abs_sub_lt_iff]
    constructor <;> nlinarith

/-- Witness for C1 at mach = 10, machAlfven = 1. -/
theorem B0_formula_witness :
    (0 : ℝ) < 10 ∧ (0 : ℝ) < 1 ∧
    compute_B0 10 1 = 2 * Real.sqrt Real.pi * 10 / 1 :=
  ⟨by norm_num, by norm_num, B0_formula.1 10 1 (by norm_num) (by norm_num)⟩

/-- C2: for strictly positive mach, drivingScale, dumpsPerTurnover and
totalTurnovers the derived time quantities satisfy exactly
`tmax = totalTurnovers / (drivingScale · mach)`,
`checkpointInterval = tmax / (totalTurnovers · dumpsPerTurnover)`,
`plotInterval = checkpointInterval`, `movieInterval = plotInterval / 10`,
`particleInterval = movieInterval` and `dtmax = movieInterval / 2`. -/
theorem turnover_time_formulas
    (mach driving_scale dumps_per_turnover total_turn_overs : ℝ)
    (hm : 0 < mach) (hd : 0 < driving_scale)
    (hn : 0 < dumps_per_turnover) (hT : 0 < total_turn_overs) :
    (compute_turnover_time_parameters mach driving_scale dumps_per_turnover
        total_turn_overs).tmax = total_turn_overs / (driving_scale * mach) ∧
    (compute_turnover_time_parameters mach driving_scale dumps_per_turnover
        total_turn_overs).checkpointFileIntervalTime =
      (compute_turnover_time_parameters mach driving_scale dumps_per_turnover
        total_turn_overs).tmax / (total_turn_overs * dumps_per_turnover) ∧
    (compute_turnover_time_parameters mach driving_scale dumps_per_turnover
        total_turn_overs).plotFileIntervalTime =
      (compute_turnover_time_parameters mach driving_scale dumps_per_turnover
        total_turn_overs).checkpointFileIntervalTime ∧
    (compute_turnover_time_parameters mach driving_scale dumps_per_turnover
        total_turn_overs).movie_dt_dump =
      (compute_turnover_time_parameters mach driving_scale dumps_per_turnover
        total_turn_overs).plotFileIntervalTime / 10 ∧
    (compute_turnover_time_parameters mach driving_scale dumps_per_turnover
        total_turn_overs).particleFileIntervalTime =
      (compute_turnover_time_parameters mach driving_scale dumps_per_turnover
        total_turn_overs).movie_dt_dump ∧
    (compute_turnover_time_parameters mach driving_scale dumps_per_turnover
        total_turn_overs).dtmax =
      (compute_turnover_time_parameters mach driving_scale dumps_per_turnover
        total_turn_overs).movie_dt_dump / 2 := by
  refine ⟨rfl, rfl, rfl, rfl, rfl, rfl⟩

/-- Witness for C2 at mach = 10, drivingScale = 2, dumpsPerTurnover = 10,
totalTurnovers = 10; spells out the example values 0.5, 0.005, 0.005,
0.0005, 0.0005, 0.00025. -/
theorem turnover_time_formulas_witness :
    (0 : ℝ) < 10 ∧ (0 : ℝ) < 2 ∧
    ((compute_turnover_time_parameters 10 2 10 10).tmax =
        10 / (2 * 10) ∧
      (compute_turnover_time_parameters 10 2 10 10).checkpointFileIntervalTime =
        (compute_turnover_time_parameters 10 2 10 10).tmax / (10 * 10) ∧
      (compute_turnover_time_parameters 10 2 10 10).plotFileIntervalTime =
        (compute_turnover_time_parameters 10 2 10 10).checkpointFileIntervalTime ∧
      (compute_turnover_time_parameters 10 2 10 10).movie_dt_dump =
        (compute_turnover_time_parameters 10 2 10 10).plotFileIntervalTime / 10 ∧
      (compute_turnover_time_parameters 10 2 10 10).particleFileIntervalTime =
        (compute_turnover_time_parameters 10 2 10 10).movie_dt_dump ∧
      (compute_turnover_time_parameters 10 2 10 10).dtmax =
        (compute_turnover_time_parameters 10 2 10 10).movie_dt_dump / 2) ∧
    (compute_turnover_time_parameters 10 2 10 10).tmax = 0.5 ∧
    (compute_turnover_time_parameters 10 2 10 10).checkpointFileIntervalTime = 0.005 ∧
    (compute_turnover_time_parameters 10 2 10 10).movie_dt_dump = 0.0005 ∧
    (compute_turnover_time_parameters 10 2 10 10).dtmax = 0.00025 := by
  refine ⟨by norm_num, by norm_num,
    turnover_time_formulas 10 2 10 10 (by norm_num) (by norm_num)
      (by norm_num) (by norm_num), ?_, ?_, ?_, ?_⟩ <;>
    · simp only [compute_turnover_time_parameters]
      norm_num

/-- C9: all seven derived quantities are strictly positive for strictly
positive inputs. -/
theorem derived_quantities_positive
    (mach mach_alfven driving_scale dumps_per_turnover total_turn_overs : ℝ)
    (hm : 0 < mach) (ha : 0 < mach_alfven) (hd : 0 < driving_scale)
    (hn : 0 < dumps_per_turnover) (hT : 0 < total_turn_overs) :
    0 < compute_B0 mach mach_alfven ∧
    0 < (compute_turnover_time_parameters
        mach driving_scale dumps_per_turnover total_turn_overs).tmax ∧
    0 < (compute_turnover_time_parameters
        mach driving_scale dumps_per_turnover total_turn_overs).checkpointFileIntervalTime ∧
    0 < (compute_turnover_time_parameters
        mach driving_scale dumps_per_turnover total_turn_overs).plotFileIntervalTime ∧
    0 < (compute_turnover_time_parameters
        mach driving_scale dumps_per_turnover total_turn_overs).movie_dt_dump ∧
    0 < (compute_turnover_time_parameters
        mach driving_scale dumps_per_turnover total_turn_overs).particleFileIntervalTime ∧
    0 < (compute_turnover_time_parameters
        mach driving_scale dumps_per_turnover total_turn_overs).dtmax := by
  have hpi : 0 < Real.sqrt Real.pi := Real.sqrt_pos.mpr Real.pi_pos
  refine ⟨?_, ?_, ?_, ?_, ?_, ?_, ?_⟩ <;>
    · simp only [compute_B0, compute_turnover_time_parameters]
      positivity

/-- Witness for C9 at mach = 10, machAlfven = 1, drivingScale = 2,
dumpsPerTurnover = 10, totalTurnovers = 10. -/
theorem derived_quantities_positive_witness :
    (0 : ℝ) < 10 ∧ (0 : ℝ) < 1 ∧ (0 : ℝ) < 2 ∧
    (0 < compute_B0 10 1 ∧
      0 < (compute_turnover_time_parameters 10 2 10 10).tmax ∧
      0 < (compute_turnover_time_parameters 10 2 10 10).checkpointFileIntervalTime ∧
      0 < (compute_turnover_time_parameters 10 2 10 10).plotFileIntervalTime ∧
      0 < (compute_turnover_time_parameters 10 2 10 10).movie_dt_dump ∧
      0 < (compute_turnover_time_parameters 10 2 10 10).particleFileIntervalTime ∧
      0 < (compute_turnover_time_parameters 10 2 10 10).dtmax) :=
  ⟨by norm_num, by norm_num, by norm_num,
    derived_quantities_positive 10 1 2 10 10 (by norm_num) (by norm_num)
      (by norm_num) (by norm_num) (by norm_num)⟩

/-- Prefix test: `hasKey l k` is true when the character list `k` occurs
at position 0 of `l`.  Python's `line.find(key) == 0` holds exactly when
`key` occurs at index 0 of `line`, i.e. when `key` is a prefix of `line`;
`pyFindSub_eq_zero` below proves the two formulations equal. -/
def hasKey : List Char → List Char → Bool
  | _, [] => true
  | [], _ :: _ => false
  | c :: cs, k :: ks => c == k && hasKey cs ks

/-- Embedding of Python `line.find(c)` for a single character `c`: the
index of the first occurrence of `c` in `line`, and `-1` when `c` does
not occur. -/
def pyFind : List Char → Char → Int
  | [], _ => -1
  | a :: as, c =>
    if a == c then 0
    else if pyFind as c == -1 then -1 else pyFind as c + 1

/-- Embedding of Python `line.find(key)` for a substring `key`: the first
index at which `key` occurs in `line`, and `-1` when it does not occur. -/
def pyFindSub : List Char → List Char → Int
  | [], k => if hasKey [] k then 0 else -1
  | a :: as, k =>
    if hasKey (a :: as) k then 0
    else if pyFindSub as k == -1 then -1 else pyFindSub as k + 1

/-- The replacement-line construction shared by all `replace_*` methods
(e.g. lines 94-95): `i = line.find("=")`,
`newline = line[0:i+1] + f" {value}\n"`.  Python's slice `line[0:i+1]`
is `take (i+1)` for `i ≥ 0` and the empty string for `i = -1`. -/
def mkNewline (line val : List Char) : List Char :=
  line.take (pyFind line '=' + 1).toNat ++ ' ' :: (val ++ ['\n'])

def keyMagField_z : List Char := "MagField_z".toList

def keySt_MPzBmeanTarget : List Char := "st_MPzBmeanTarget".toList

def keyMovie_dt_dump : List Char := "movie_dt_dump".toList

def keyCheckpoint : List Char := "checkpointFileIntervalTime".toList

def keyPlot : List Char := "plotFileIntervalTime".toList

def keyParticle : List Char := "particleFileIntervalTime".toList

def keyDtmax : List Char := "dtmax".toList

def keyTmax : List Char := "tmax".toList

def keySt_infilename : List Char := "st_infilename".toList

/-- The textual state of `UpdateFlashParameterFile` as the line rewriter
sees it: the rendered (`f"{...}"`) string of each numeric field together
with the optional forcing-file name (`None` when `-forcing` was not
given). -/
structure ParamStrings where
  B0 : List Char
  movie_dt_dump : List Char
  checkpointFileIntervalTime : List Char
  plotFileIntervalTime : List Char
  particleFileIntervalTime : List Char
  dtmax : List Char
  tmax : List Char
  forcing_file : Option (List Char)

/-- Embedding of `replace_magnetic_field` (lines 87-99).  The debug
prints are diagnostics only and are not modelled. -/
def replace_magnetic_field (v : ParamStrings) (line : List Char) : List Char :=
  if pyFindSub line keyMagField_z == 0 || pyFindSub line keySt_MPzBmeanTarget == 0 then
    mkNewline line v.B0
  else line

/-- Embedding of `replace_forcing_file` (lines 101-111). -/
def replace_forcing_file (forcing_file : List Char) (line : List Char) : List Char :=
  if pyFindSub line keySt_infilename == 0 then mkNewline line forcing_file
  else line

/-- Embedding of `replace_turnover_times` (lines 113-165): one `elif`
branch per turnover-time key, in source order. -/
def replace_turnover_times (v : ParamStrings) (line : List Char) : List Char :=
  if pyFindSub line keyMovie_dt_dump == 0 then
    mkNewline line v.movie_dt_dump
  else if pyFindSub line keyCheckpoint == 0 then
    mkNewline line v.checkpointFileIntervalTime
  else if pyFindSub line keyPlot == 0 then
    mkNewline line v.plotFileIntervalTime
  else if pyFindSub line keyParticle == 0 then
    mkNewline line v.particleFileIntervalTime
  else if pyFindSub line keyDtmax == 0 then
    mkNewline line v.dtmax
  else if pyFindSub line keyTmax == 0 then
    mkNewline line v.tmax
  else line

/-- The loop body of `update_flash_par` (lines 171-180): magnetic-field
replacement, then turnover-time replacement, then — only when a forcing
file was supplied — forcing-file replacement. -/
def processLine (v : ParamStrings) (line : List Char) : List Char :=
  match v.forcing_file with
  | some ff => replace_forcing_file ff (replace_turnover_times v (replace_magnetic_field v line))
  | none => replace_turnover_times v (replace_magnetic_field v line)

/-- The read/rewrite/write loop of `update_flash_par` (lines 167-185):
every line of the source file is rewritten in order and appended to the
temporary file, which then replaces the original. -/
def update_flash_par (v : ParamStrings) : List (List Char) → List (List Char)
  | [] => []
  | line :: rest => processLine v line :: update_flash_par v rest

/-- Modelled from the spec's matching rule (§4.2): the ordered key table —
magnetic-field keys, then movie, checkpoint, plot, particle, dtmax, tmax,
then the forcing key (present only when a forcing file is supplied) —
each paired with its replacement value. -/
def keyOrder (v : ParamStrings) : List (List Char × List Char) :=
  [(keyMagField_z, v.B0), (keySt_MPzBmeanTarget, v.B0),
   (keyMovie_dt_dump, v.movie_dt_dump),
   (keyCheckpoint, v.checkpointFileIntervalTime),
   (keyPlot, v.plotFileIntervalTime),
   (keyParticle, v.particleFileIntervalTime),
   (keyDtmax, v.dtmax), (keyTmax, v.tmax)] ++
  (match v.forcing_file with
   | some ff => [(keySt_infilename, ff)]
   | none => [])

/-- First key of an ordered key table that matches the line at column 0,
together with its replacement value. -/
def firstMatch : List (List Char × List Char) → List Char → Option (List Char)
  | [], _ => none
  | (k, val) :: rest, line =>
    if hasKey line k then some val else firstMatch rest line

/-- Modelled from the spec (§4.2, for C3): a single substitution using
the first matching key of the ordered table, pass-through otherwise. -/
def specRewrite (v : ParamStrings) (line : List Char) : List Char :=
  match firstMatch (keyOrder v) line with
  | some val => mkNewline line val
  | none => line

lemma pyFindSub_ge (l k : List Char) : -1 ≤ pyFindSub l k := by
  induction l with
  | nil =>
    simp only [pyFindSub]
    split <;> omega
  | cons a as ih =>
    simp only [pyFindSub]
    split
    · omega
    · split
      · omega
      · omega

/-- Python `line.find(key) == 0` is exactly the prefix test `hasKey`. -/
lemma pyFindSub_eq_zero (l k : List Char) : (pyFindSub l k == 0) = hasKey l k := by
  cases l with
  | nil =>
    simp only [pyFindSub]
    split
    · simp [*]
    · rename_i h
      simp only [Bool.not_eq_true] at h
      rw [h]
      decide
  | cons a as =>
    simp only [pyFindSub]
    split
    · simp [*]
    · rename_i h
      simp only [Bool.not_eq_true] at h
      rw [h]
      split
      · decide
      · rename_i h2
        have hge := pyFindSub_ge as k
        have hne : pyFindSub as k ≠ -1 := by
          intro hc
          rw [hc] at h2
          exact h2 (by decide)
        rw [beq_eq_false_iff_ne]
        omega

lemma pyFind_ge (l : List Char) (c : Char) : -1 ≤ pyFind l c := by
  induction l with
  | nil => simp [pyFind]
  | cons a as ih =>
    simp only [pyFind]
    split
    · omega
    · split
      · omega
      · omega

lemma pyFind_of_not_mem (l : List Char) (c : Char) (h : c ∉ l) :
    pyFind l c = -1 := by
  induction l with
  | nil => rfl
  | cons a as ih =>
    simp only [List.mem_cons, not_or] at h
    have hba : (a == c) = false := by
      rw [beq_eq_false_iff_ne]
      exact fun hh => h.1 hh.symm
    have hcond : ¬ ((a == c) = true) := by
      rw [hba]
      simp
    simp only [pyFind]
    rw [if_neg hcond, ih h.2]
    decide

lemma pyFind_nonneg_of_mem (l : List Char) (c : Char) (h : c ∈ l) :
    0 ≤ pyFind l c := by
  induction l with
  | nil => cases h
  | cons a as ih =>
    simp only [pyFind]
    split
    · omega
    · rename_i ha
      simp only [beq_iff_eq] at ha
      have hmem : c ∈ as := by
        rcases List.mem_cons.mp h with h1 | h1
        · exact absurd h1.symm ha
        · exact h1
      have := ih hmem
      split
      · rename_i h2
        simp only [beq_iff_eq] at h2
        omega
      · omega

/-- The slice `line[0 : line.find(c) + 1]` keeps everything strictly
before the first `c` and the first `c` itself. -/
lemma take_pyFind (l : List Char) (c : Char) (h : c ∈ l) :
    l.take (pyFind l c + 1).toNat = l.takeWhile (fun a => a != c) ++ [c] := by
  induction l with
  | nil => cases h
  | cons a as ih =>
    by_cases hac : a = c
    · subst hac
      simp [pyFind, List.takeWhile]
    · have hmem : a ∈ (a :: as) := List.mem_cons_self a as
      have hcas : c ∈ as := by
        rcases List.mem_cons.mp h with h1 | h1
        · exact absurd h1.symm hac
        · exact h1
      have hnn := pyFind_nonneg_of_mem as c hcas
      have hbeq : (a == c) = false := by simp [hac]
      have hcond : ¬ ((a == c) = true) := by
        rw [hbeq]
        simp
      have hne1 : (pyFind as c == -1) = false := by
        rw [beq_eq_false_iff_ne]
        omega
      have hcond1 : ¬ ((pyFind as c == -1) = true) := by
        rw [hne1]
        simp
      simp only [pyFind]
      rw [if_neg hcond, if_neg hcond1]
      have htn : (pyFind as c + 1 + 1).toNat = (pyFind as c + 1).toNat + 1 := by
        omega
      rw [htn]
      simp only [List.take_succ_cons, List.takeWhile, bne, hbeq, Bool.not_false,
        List.cons_append]
      rw [ih hcas]
      rfl

/-- A line with no `'='` is rewritten to `" <value>\n"`: the whole
original content is discarded (Python `find` returns `-1`, the slice
`line[0:0]` is empty). -/
lemma mkNewline_of_not_mem (line val : List Char) (h : '=' ∉ line) :
    mkNewline line val = ' ' :: (val ++ ['\n']) := by
  unfold mkNewline
  rw [pyFind_of_not_mem line _ h]
  rfl

/-- A line containing `'='` is rewritten to its prefix up to and
including the first `'='`, then a space, the value, and a newline. -/
lemma mkNewline_of_mem (line val : List Char) (h : '=' ∈ line) :
    mkNewline line val =
      line.takeWhile (fun a => a != '=') ++ '=' :: ' ' :: (val ++ ['\n']) := by
  unfold mkNewline
  rw [take_pyFind line _ h]
  simp

lemma hasKey_nil_right (l : List Char) : hasKey l [] = true := by
  cases l <;> rfl

lemma hasKey_append (l m k : List Char) (h : hasKey l k = true) :
    hasKey (l ++ m) k = true := by
  induction k generalizing l with
  | nil => exact hasKey_nil_right _
  | cons b ks ih =>
    cases l with
    | nil => simp [hasKey] at h
    | cons c cs =>
      simp only [hasKey, Bool.and_eq_true] at h
      simp only [List.cons_append, hasKey, Bool.and_eq_true]
      exact ⟨h.1, ih cs h.2⟩

lemma hasKey_takeWhile (l k : List Char) (p : Char → Bool)
    (h : hasKey l k = true) (hp : ∀ a ∈ k, p a = true) :
    hasKey (l.takeWhile p) k = true := by
  induction k generalizing l with
  | nil => exact hasKey_nil_right _
  | cons b ks ih =>
    cases l with
    | nil => simp [hasKey] at h
    | cons c cs =>
      simp only [hasKey, Bool.and_eq_true] at h
      have hcb : c = b := by
        have := h.1
        simpa using this
      have hpc : p c = true := by
        rw [hcb]
        exact hp b (List.mem_cons_self b ks)
      simp only [List.takeWhile, hpc]
      simp only [hasKey, Bool.and_eq_true]
      refine ⟨h.1, ih cs h.2 ?_⟩
      intro a ha
      exact hp a (List.mem_cons_of_mem b ha)

/-- A key of the original line survives the rewrite when the line
contains `'='` and the key itself contains no `'='`. -/
lemma hasKey_mkNewline (line val k : List Char) (hk : hasKey line k = true)
    (hne : '=' ∉ k) (hmem : '=' ∈ line) :
    hasKey (mkNewline line val) k = true := by
  rw [mkNewline_of_mem line val hmem]
  apply hasKey_append
  apply hasKey_takeWhile line k _ hk
  intro a ha
  simp only [bne_iff_ne, ne_eq]
  intro heq
  exact hne (heq ▸ ha)

/-- Two keys occurring at column 0 of the same line are comparable: one
is a prefix of the other. -/
lemma hasKey_total (l k j : List Char) (hk : hasKey l k = true)
    (hj : hasKey l j = true) : hasKey k j = true ∨ hasKey j k = true := by
  induction l generalizing k j with
  | nil =>
    cases k with
    | nil => exact Or.inr (hasKey_nil_right _)
    | cons b ks => simp [hasKey] at hk
  | cons c cs ih =>
    cases k with
    | nil => exact Or.inr (hasKey_nil_right _)
    | cons b ks =>
      cases j with
      | nil => exact Or.inl (hasKey_nil_right _)
      | cons d js =>
        simp only [hasKey, Bool.and_eq_true] at hk hj
        have hcb : c = b := by simpa using hk.1
        have hcd : c = d := by simpa using hj.1
        have hbd : (b == d) = true := by simp [← hcb, ← hcd]
        have hdb : (d == b) = true := by simp [← hcb, ← hcd]
        rcases ih ks js hk.2 hj.2 with h | h
        · exact Or.inl (by simp [hasKey, hbd, h])
        · exact Or.inr (by simp [hasKey, hdb, h])

/-- A space-initial line matches none of the (letter-initial) keys. -/
lemma hasKey_space_false (k r : List Char) (hne : k ≠ [])
    (hhead : k.head? ≠ some ' ') : hasKey (' ' :: r) k = false := by
  cases k with
  | nil => exact absurd rfl hne
  | cons b ks =>
    have hb : (' ' == b) = false := by
      rw [beq_eq_false_iff_ne]
      intro hsp
      exact hhead (by rw [← hsp]; rfl)
    simp [hasKey, hb]

/-- After a substitution triggered by key `k`, the rewritten line matches
no key `j` that is prefix-incomparable with `k` and does not start with a
space: with `'='` in the line the whole of `k` survives at column 0, and
without `'='` the rewritten line starts with a space. -/
lemma mkNewline_no_key (line val k j : List Char)
    (hk : hasKey line k = true) (hne : '=' ∉ k)
    (hkj : hasKey k j = false) (hjk : hasKey j k = false)
    (hjnil : j ≠ []) (hjhead : j.head? ≠ some ' ') :
    hasKey (mkNewline line val) j = false := by
  by_cases hmem : '=' ∈ line
  · cases hcon : hasKey (mkNewline line val) j with
    | false => rfl
    | true =>
      have hK := hasKey_mkNewline line val k hk hne hmem
      rcases hasKey_total _ _ _ hK hcon with h | h
      · rw [h] at hkj
        cases hkj
      · rw [h] at hjk
        cases hjk
  · rw [mkNewline_of_not_mem line val hmem]
    exact hasKey_space_false j _ hjnil hjhead

lemma replace_magnetic_field_eq_self (v : ParamStrings) (l : List Char)
    (h1 : hasKey l keyMagField_z = false)
    (h2 : hasKey l keySt_MPzBmeanTarget = false) :
    replace_magnetic_field v l = l := by
  simp [replace_magnetic_field, pyFindSub_eq_zero, h1, h2]

lemma replace_turnover_times_eq_self (v : ParamStrings) (l : List Char)
    (h1 : hasKey l keyMovie_dt_dump = false)
    (h2 : hasKey l keyCheckpoint = false)
    (h3 : hasKey l keyPlot = false)
    (h4 : hasKey l keyParticle = false)
    (h5 : hasKey l keyDtmax = false)
    (h6 : hasKey l keyTmax = false) :
    replace_turnover_times v l = l := by
  simp [replace_turnover_times, pyFindSub_eq_zero, h1, h2, h3, h4, h5, h6]

lemma replace_forcing_file_eq_self (ff l : List Char)
    (h : hasKey l keySt_infilename = false) :
    replace_forcing_file ff l = l := by
  simp [replace_forcing_file, pyFindSub_eq_zero, h]

/-- A line rewritten for a magnetic-field key matches none of the
turnover-time keys and not the forcing key, so the later replace passes
leave it unchanged. -/
lemma mag_rewrite_fixed (v : ParamStrings) (line val : List Char)
    (h : hasKey line keyMagField_z = true ∨ hasKey line keySt_MPzBmeanTarget = true) :
    replace_turnover_times v (mkNewline line val) = mkNewline line val ∧
    ∀ ff, replace_forcing_file ff (mkNewline line val) = mkNewline line val := by
  rcases h with hk | hk
  · refine ⟨replace_turnover_times_eq_self v _
      (mkNewline_no_key _ _ _ _ hk (by decide) (by decide) (by decide) (by decide) (by decide))
      (mkNewline_no_key _ _ _ _ hk (by decide) (by decide) (by decide) (by decide) (by decide))
      (mkNewline_no_key _ _ _ _ hk (by decide) (by decide) (by decide) (by decide) (by decide))
      (mkNewline_no_key _ _ _ _ hk (by decide) (by decide) (by decide) (by decide) (by decide))
      (mkNewline_no_key _ _ _ _ hk (by decide) (by decide) (by decide) (by decide) (by decide))
      (mkNewline_no_key _ _ _ _ hk (by decide) (by decide) (by decide) (by decide) (by decide)),
      fun ff => replace_forcing_file_eq_self ff _
        (mkNewline_no_key _ _ _ _ hk (by decide) (by decide) (by decide) (by decide) (by decide))⟩
  · refine ⟨replace_turnover_times_eq_self v _
      (mkNewline_no_key _ _ _ _ hk (by decide) (by decide) (by decide) (by decide) (by decide))
      (mkNewline_no_key _ _ _ _ hk (by decide) (by decide) (by decide) (by decide) (by decide))
      (mkNewline_no_key _ _ _ _ hk (by decide) (by decide) (by decide) (by decide) (by decide))
      (mkNewline_no_key _ _ _ _ hk (by decide) (by decide) (by decide) (by decide) (by decide))
      (mkNewline_no_key _ _ _ _ hk (by decide) (by decide) (by decide) (by decide) (by decide))
      (mkNewline_no_key _ _ _ _ hk (by decide) (by decide) (by decide) (by decide) (by decide)),
      fun ff => replace_forcing_file_eq_self ff _
        (mkNewline_no_key _ _ _ _ hk (by decide) (by decide) (by decide) (by decide) (by decide))⟩

/-- The line rewriter of `prep_MHD.py` is exactly the spec's ordered
first-match rewriter: keys are tested in the fixed order and at most one
substitution is applied per line. -/
lemma processLine_eq_specRewrite (v : ParamStrings) (line : List Char) :
    processLine v line = specRewrite v line := by
  by_cases hm1 : hasKey line keyMagField_z = true
  · have hfix := mag_rewrite_fixed v line v.B0 (Or.inl hm1)
    have hmag : replace_magnetic_field v line = mkNewline line v.B0 := by
      simp [replace_magnetic_field, pyFindSub_eq_zero, hm1]
    have hL : processLine v line = mkNewline line v.B0 := by
      cases hff : v.forcing_file with
      | none => simp only [processLine, hff, hmag, hfix.1]
      | some ff => simp only [processLine, hff, hmag, hfix.1, hfix.2 ff]
    rw [hL]
    simp [specRewrite, keyOrder, firstMatch, hm1]
  · rw [Bool.not_eq_true] at hm1
    by_cases hm2 : hasKey line keySt_MPzBmeanTarget = true
    · have hfix := mag_rewrite_fixed v line v.B0 (Or.inr hm2)
      have hmag : replace_magnetic_field v line = mkNewline line v.B0 := by
        simp [replace_magnetic_field, pyFindSub_eq_zero, hm2]
      have hL : processLine v line = mkNewline line v.B0 := by
        cases hff : v.forcing_file with
        | none => simp only [processLine, hff, hmag, hfix.1]
        | some ff => simp only [processLine, hff, hmag, hfix.1, hfix.2 ff]
      rw [hL]
      simp [specRewrite, keyOrder, firstMatch, hm1, hm2]
    · rw [Bool.not_eq_true] at hm2
      have hmag : replace_magnetic_field v line = line :=
        replace_magnetic_field_eq_self v line hm1 hm2
      by_cases ht1 : hasKey line keyMovie_dt_dump = true
      · have hto : replace_turnover_times v line = mkNewline line v.movie_dt_dump := by
          simp [replace_turnover_times, pyFindSub_eq_zero, ht1]
        have hskip : ∀ ff, replace_forcing_file ff (mkNewline line v.movie_dt_dump) =
            mkNewline line v.movie_dt_dump :=
          fun ff => replace_forcing_file_eq_self ff _
            (mkNewline_no_key _ _ _ _ ht1 (by decide) (by decide) (by decide) (by decide) (by decide))
        have hL : processLine v line = mkNewline line v.movie_dt_dump := by
          cases hff : v.forcing_file with
          | none => simp only [processLine, hff, hmag, hto]
          | some ff => simp only [processLine, hff, hmag, hto, hskip ff]
        rw [hL]
        simp [specRewrite, keyOrder, firstMatch, hm1, hm2, ht1]
      · rw [Bool.not_eq_true] at ht1
        by_cases ht2 : hasKey line keyCheckpoint = true
        · have hto : replace_turnover_times v line =
              mkNewline line v.checkpointFileIntervalTime := by
            simp [replace_turnover_times, pyFindSub_eq_zero, ht1, ht2]
          have hskip : ∀ ff, replace_forcing_file ff
              (mkNewline line v.checkpointFileIntervalTime) =
              mkNewline line v.checkpointFileIntervalTime :=
            fun ff => replace_forcing_file_eq_self ff _
              (mkNewline_no_key _ _ _ _ ht2 (by decide) (by decide) (by decide) (by decide) (by decide))
          have hL : processLine v line = mkNewline line v.checkpointFileIntervalTime := by
            cases hff : v.forcing_file with
            | none => simp only [processLine, hff, hmag, hto]
            | some ff => simp only [processLine, hff, hmag, hto, hskip ff]
          rw [hL]
          simp [specRewrite, keyOrder, firstMatch, hm1, hm2, ht1, ht2]
        · rw [Bool.not_eq_true] at ht2
          by_cases ht3 : hasKey line keyPlot = true
          · have hto : replace_turnover_times v line =
                mkNewline line v.plotFileIntervalTime := by
              simp [replace_turnover_times, pyFindSub_eq_zero, ht1, ht2, ht3]
            have hskip : ∀ ff, replace_forcing_file ff
                (mkNewline line v.plotFileIntervalTime) =
                mkNewline line v.plotFileIntervalTime :=
              fun ff => replace_forcing_file_eq_self ff _
                (mkNewline_no_key _ _ _ _ ht3 (by decide) (by decide) (by decide) (by decide) (by decide))
            have hL : processLine v line = mkNewline line v.plotFileIntervalTime := by
              cases hff : v.forcing_file with
              | none => simp only [processLine, hff, hmag, hto]
              | some ff => simp only [processLine, hff, hmag, hto, hskip ff]
            rw [hL]
            simp [specRewrite, keyOrder, firstMatch, hm1, hm2, ht1, ht2, ht3]
          · rw [Bool.not_eq_true] at ht3
            by_cases ht4 : hasKey line keyParticle = true
            · have hto : replace_turnover_times v line =
                  mkNewline line v.particleFileIntervalTime := by
                simp [replace_turnover_times, pyFindSub_eq_zero, ht1, ht2, ht3, ht4]
              have hskip : ∀ ff, replace_forcing_file ff
                  (mkNewline line v.particleFileIntervalTime) =
                  mkNewline line v.particleFileIntervalTime :=
                fun ff => replace_forcing_file_eq_self ff _
                  (mkNewline_no_key _ _ _ _ ht4 (by decide) (by decide) (by decide) (by decide) (by decide))
              have hL : processLine v line = mkNewline line v.particleFileIntervalTime := by
                cases hff : v.forcing_file with
                | none => simp only [processLine, hff, hmag, hto]
                | some ff => simp only [processLine, hff, hmag, hto, hskip ff]
              rw [hL]
              simp [specRewrite, keyOrder, firstMatch, hm1, hm2, ht1, ht2, ht3, ht4]
            · rw [Bool.not_eq_true] at ht4
              by_cases ht5 : hasKey line keyDtmax = true
              · have hto : replace_turnover_times v line = mkNewline line v.dtmax := by
                  simp [replace_turnover_times, pyFindSub_eq_zero, ht1, ht2, ht3, ht4, ht5]
                have hskip : ∀ ff, replace_forcing_file ff (mkNewline line v.dtmax) =
                    mkNewline line v.dtmax :=
                  fun ff => replace_forcing_file_eq_self ff _
                    (mkNewline_no_key _ _ _ _ ht5 (by decide) (by decide) (by decide) (by decide) (by decide))
                have hL : processLine v line = mkNewline line v.dtmax := by
                  cases hff : v.forcing_file with
                  | none => simp only [processLine, hff, hmag, hto]
                  | some ff => simp only [processLine, hff, hmag, hto, hskip ff]
                rw [hL]
                simp [specRewrite, keyOrder, firstMatch, hm1, hm2, ht1, ht2, ht3, ht4, ht5]
              · rw [Bool.not_eq_true] at ht5
                by_cases ht6 : hasKey line keyTmax = true
                · have hto : replace_turnover_times v line = mkNewline line v.tmax := by
                    simp [replace_turnover_times, pyFindSub_eq_zero, ht1, ht2, ht3, ht4, ht5, ht6]
                  have hskip : ∀ ff, replace_forcing_file ff (mkNewline line v.tmax) =
                      mkNewline line v.tmax :=
                    fun ff => replace_forcing_file_eq_self ff _
                      (mkNewline_no_key _ _ _ _ ht6 (by decide) (by decide) (by decide) (by decide) (by decide))
                  have hL : processLine v line = mkNewline line v.tmax := by
                    cases hff : v.forcing_file with
                    | none => simp only [processLine, hff, hmag, hto]
                    | some ff => simp only [processLine, hff, hmag, hto, hskip ff]
                  rw [hL]
                  simp [specRewrite, keyOrder, firstMatch, hm1, hm2, ht1, ht2, ht3, ht4, ht5, ht6]
                · rw [Bool.not_eq_true] at ht6
                  have hto : replace_turnover_times v line = line :=
                    replace_turnover_times_eq_self v line ht1 ht2 ht3 ht4 ht5 ht6
                  cases hff : v.forcing_file with
                  | none =>
                    simp only [processLine, hff, hmag, hto]
                    simp [specRewrite, keyOrder, firstMatch, hm1, hm2, ht1, ht2, ht3,
                      ht4, ht5, ht6, hff]
                  | some ff =>
                    by_cases hsf : hasKey line keySt_infilename = true
                    · have hforce : replace_forcing_file ff line = mkNewline line ff := by
                        simp [replace_forcing_file, pyFindSub_eq_zero, hsf]
                      simp only [processLine, hff, hmag, hto, hforce]
                      simp [specRewrite, keyOrder, firstMatch, hm1, hm2, ht1, ht2, ht3,
                        ht4, ht5, ht6, hsf, hff]
                    · rw [Bool.not_eq_true] at hsf
                      have hforce : replace_forcing_file ff line = line :=
                        replace_forcing_file_eq_self ff line hsf
                      simp only [processLine, hff, hmag, hto, hforce]
                      simp [specRewrite, keyOrder, firstMatch, hm1, hm2, ht1, ht2, ht3,
                        ht4, ht5, ht6, hsf, hff]

/-- Splitting a list at the first occurrence of a character. -/
lemma mem_split_at_first (l : List Char) (c : Char) (h : c ∈ l) :
    l = l.takeWhile (fun a => a != c) ++
      c :: (l.dropWhile (fun a => a != c)).tail := by
  induction l with
  | nil => cases h
  | cons a as ih =>
    by_cases hac : a = c
    · subst hac
      simp [List.takeWhile, List.dropWhile]
    · have hcas : c ∈ as := by
        rcases List.mem_cons.mp h with h1 | h1
        · exact absurd h1.symm hac
        · exact h1
      have hbeq : (a != c) = true := by simp [hac]
      simp only [List.takeWhile, List.dropWhile, hbeq, List.cons_append]
      exact congrArg (a :: ·) (ih hcas)

lemma processLine_of_no_match (v : ParamStrings) (line : List Char)
    (h : firstMatch (keyOrder v) line = none) : processLine v line = line := by
  rw [processLine_eq_specRewrite]
  unfold specRewrite
  rw [h]

lemma update_flash_par_eq_map (v : ParamStrings) (lines : List (List Char)) :
    update_flash_par v lines = lines.map (processLine v) := by
  induction lines with
  | nil => rfl
  | cons line rest ih =>
    simp only [update_flash_par, List.map, ih]

/-- C3: a substitution is applied to a line exactly when the line starts
(at column 0, case-sensitively) with one of the nine fixed keys, the
ninth (`st_infilename`) present only when a forcing file is supplied;
keys are tested in the fixed order — magnetic-field keys, then movie,
checkpoint, plot, particle, dtmax, tmax, then the forcing key — with
first match winning and at most one substitution applied per line. -/
theorem rewrite_first_match (v : ParamStrings) (line : List Char) :
    processLine v line = specRewrite v line :=
  processLine_eq_specRewrite v line

/-- Concrete parameter strings for the worked example mach = 10,
machAlfven = 1, drivingScale = 2, dumpsPerTurnover = 10,
totalTurnovers = 10 (Python would render tmax = 0.5 as "0.5", etc.). -/
def vEx : ParamStrings :=
  ⟨"35.44907701811032".toList, "0.0005".toList, "0.005".toList,
   "0.005".toList, "0.0005".toList, "0.00025".toList, "0.5".toList, none⟩

/-- C4: a target line containing `'='` is rewritten to its original text
up to and including the first `'='` (preserved byte-for-byte — the line
really decomposes as that prefix followed by `'='`), then one space, the
value string, and a newline. -/
theorem target_line_rewrite (v : ParamStrings) (line val : List Char)
    (hmem : '=' ∈ line) (hmatch : firstMatch (keyOrder v) line = some val) :
    processLine v line =
      line.takeWhile (fun a => a != '=') ++ '=' :: ' ' :: (val ++ ['\n']) ∧
    ∃ rest, line = line.takeWhile (fun a => a != '=') ++ '=' :: rest := by
  constructor
  · rw [processLine_eq_specRewrite]
    unfold specRewrite
    rw [hmatch]
    exact mkNewline_of_mem line val hmem
  · exact ⟨(line.dropWhile (fun a => a != '=')).tail, mem_split_at_first line _ hmem⟩

/-- Witness for C4: the round-trip example, input line `tmax = 999.0\n`
with computed tmax rendered as `0.5` becomes exactly `tmax = 0.5\n`. -/
theorem target_line_rewrite_witness :
    '=' ∈ ("tmax = 999.0\n".toList) ∧
    firstMatch (keyOrder vEx) ("tmax = 999.0\n".toList) = some ("0.5".toList) ∧
    processLine vEx ("tmax = 999.0\n".toList) = "tmax = 0.5\n".toList := by
  refine ⟨by decide, by decide, ?_⟩
  have h := target_line_rewrite vEx ("tmax = 999.0\n".toList) ("0.5".toList)
    (by decide) (by decide)
  rw [h.1]
  decide

/-- C10: a line that starts with a target key but contains no `'='` has
`find("=") = -1`, and its rewrite is a space, the value string and a
newline — the whole original line content, key included, is discarded. -/
theorem no_equals_line_discarded (v : ParamStrings) (line val : List Char)
    (hmem : '=' ∉ line) (hmatch : firstMatch (keyOrder v) line = some val) :
    pyFind line '=' = -1 ∧
    processLine v line = ' ' :: (val ++ ['\n']) := by
  refine ⟨pyFind_of_not_mem line _ hmem, ?_⟩
  rw [processLine_eq_specRewrite]
  unfold specRewrite
  rw [hmatch]
  exact mkNewline_of_not_mem line val hmem

/-- Witness for C10: the target line `tmax limit\n` has no `'='` and is
rewritten to `" 0.5\n"`, discarding the key token itself. -/
theorem no_equals_line_discarded_witness :
    '=' ∉ ("tmax limit\n".toList) ∧
    firstMatch (keyOrder vEx) ("tmax limit\n".toList) = some ("0.5".toList) ∧
    (pyFind ("tmax limit\n".toList) '=' = -1 ∧
      processLine vEx ("tmax limit\n".toList) = ' ' :: ("0.5".toList ++ ['\n'])) :=
  ⟨by decide, by decide,
   no_equals_line_discarded vEx ("tmax limit\n".toList) ("0.5".toList)
     (by decide) (by decide)⟩

lemma map_processLine_id (v : ParamStrings) (lines : List (List Char))
    (hall : ∀ line ∈ lines, firstMatch (keyOrder v) line = none) :
    lines.map (processLine v) = lines := by
  induction lines with
  | nil => rfl
  | cons line rest ih =>
    simp only [List.map]
    rw [processLine_of_no_match v line (hall line (List.mem_cons_self line rest)),
      ih (fun l hl => hall l (List.mem_cons_of_mem line hl))]

/-- C6: the output file is the element-wise image of the input lines
under the per-line rewriter — same number of lines, same order,
non-target lines byte-identical, and a file with no target keys is
returned byte-identical. -/
theorem file_rewrite_linewise (v : ParamStrings) (lines : List (List Char)) :
    update_flash_par v lines = lines.map (processLine v) ∧
    (update_flash_par v lines).length = lines.length ∧
    (∀ i (h1 : i < lines.length) (h2 : i < (update_flash_par v lines).length),
      firstMatch (keyOrder v) (lines.get ⟨i, h1⟩) = none →
      (update_flash_par v lines).get ⟨i, h2⟩ = lines.get ⟨i, h1⟩) ∧
    ((∀ line ∈ lines, firstMatch (keyOrder v) line = none) →
      update_flash_par v lines = lines) := by
  have hmap := update_flash_par_eq_map v lines
  rw [hmap]
  refine ⟨rfl, by simp, ?_, map_processLine_id v lines⟩
  intro i h1 h2 hnone
  have hg : (lines.map (processLine v)).get ⟨i, h2⟩ =
      processLine v (lines.get ⟨i, h1⟩) := by
    simp
  rw [hg]
  exact processLine_of_no_match v _ hnone

/-- Witness for C6: a two-line file with no target keys is returned
byte-identical. -/
theorem file_rewrite_linewise_witness :
    update_flash_par vEx ["# comment\n".toList, "nblockx = 1\n".toList] =
      ["# comment\n".toList, "nblockx = 1\n".toList] :=
  (file_rewrite_linewise vEx ["# comment\n".toList, "nblockx = 1\n".toList]).2.2.2
    (by decide)

/-- Error kinds of the file-rewrite transaction: the source file missing
(Python `FileNotFoundError` from `open`) or the temporary file failing to
be created or written (`mkstemp` / `open` / `write`). -/
inductive FileErr where
  | notFound : FileErr
  | writeFailure : FileErr
deriving DecidableEq

/-- State-passing model of the file transaction in `update_flash_par`
(prep_MHD.py lines 167-185).  `orig` is the content at the original path
(`none` when the file does not exist); `tempOk` models whether the
temporary file can be created and written.  The source order is:
`mkstemp` and `open(tempfile)` first (a failure there aborts with the
original untouched), then `open(self.file_name)` (missing source aborts
with nothing changed), then the rewrite loop; only after the loop and
the closes succeed are `remove(self.file_name)` and `move(tempfile, ...)`
executed, installing the rewritten lines at the original path.  The
returned pair is (operation result, final content at the original
path). -/
def update_flash_par_io (v : ParamStrings) (tempOk : Bool)
    (orig : Option (List (List Char))) :
    Except FileErr (List (List Char)) × Option (List (List Char)) :=
  if tempOk = false then (Except.error FileErr.writeFailure, orig)
  else
    match orig with
    | none => (Except.error FileErr.notFound, orig)
    | some lines =>
      (Except.ok (update_flash_par v lines), some (update_flash_par v lines))

/-- C7: on every failure path the original file is unchanged; an
unopenable source yields `notFound` and an uncreatable/unwritable
temporary file yields `writeFailure`, in both cases with the original
content left exactly as it was. -/
theorem failure_preserves_original (v : ParamStrings) (tempOk : Bool)
    (orig : Option (List (List Char))) :
    (∀ e, (update_flash_par_io v tempOk orig).1 = Except.error e →
      (update_flash_par_io v tempOk orig).2 = orig) ∧
    (tempOk = false →
      (update_flash_par_io v tempOk orig).1 = Except.error FileErr.writeFailure) ∧
    (tempOk = true → orig = none →
      (update_flash_par_io v tempOk orig).1 = Except.error FileErr.notFound) := by
  unfold update_flash_par_io
  cases tempOk with
  | false => simp
  | true =>
    cases orig with
    | none => simp
    | some lines => simp

/-- Witness for C7: with a failing temporary file, the operation reports
`writeFailure` and the single-line original file is untouched. -/
theorem failure_preserves_original_witness :
    (update_flash_par_io vEx false (some ["tmax = 1\n".toList])).1 =
      Except.error FileErr.writeFailure ∧
    (update_flash_par_io vEx false (some ["tmax = 1\n".toList])).2 =
      some ["tmax = 1\n".toList] :=
  ⟨(failure_preserves_original vEx false (some ["tmax = 1\n".toList])).2.1 rfl,
   (failure_preserves_original vEx false (some ["tmax = 1\n".toList])).1
     FileErr.writeFailure
     ((failure_preserves_original vEx false (some ["tmax = 1\n".toList])).2.1 rfl)⟩

/-- The argument passed to `os.chmod` at prep_MHD.py line 186: the
decimal literal `644` (no octal prefix). -/
def chmod_mode : Nat := 644

/-- C8 (code bug): the mode passed to the permission-setting call is the
decimal literal 644 = 0o1204, not the intended 0o644 = 420
(`rw-r--r--`). -/
theorem chmod_mode_literal :
    chmod_mode = 644 ∧ chmod_mode ≠ 0o644 ∧ (0o644 : Nat) = 420 := by
  refine ⟨rfl, ?_, rfl⟩
  decide

/-- Rendered strings of the derived quantities, as built one field at a
time by `compute_B0` and `compute_turnover_time_parameters` before the
rewrite passes; `render` models Python float formatting `f"{x}"`, which
is outside the numeric embedding. -/
noncomputable def paramStringsOf (render : ℝ → List Char)
    (mach mach_alfven driving_scale dumps_per_turnover total_turn_overs : ℝ)
    (forcing_file : Option (List Char)) : ParamStrings :=
  ⟨render (compute_B0 mach mach_alfven),
   render (compute_turnover_time_parameters mach driving_scale
     dumps_per_turnover total_turn_overs).movie_dt_dump,
   render (compute_turnover_time_parameters mach driving_scale
     dumps_per_turnover total_turn_overs).checkpointFileIntervalTime,
   render (compute_turnover_time_parameters mach driving_scale
     dumps_per_turnover total_turn_overs).plotFileIntervalTime,
   render (compute_turnover_time_parameters mach driving_scale
     dumps_per_turnover total_turn_overs).particleFileIntervalTime,
   render (compute_turnover_time_parameters mach driving_scale
     dumps_per_turnover total_turn_overs).dtmax,
   render (compute_turnover_time_parameters mach driving_scale
     dumps_per_turnover total_turn_overs).tmax,
   forcing_file⟩

/-- Errors that can abort the `main` pipeline: an I/O failure of the
rewrite transaction, or Python's `ZeroDivisionError` from the
pure-Python divisions of `compute_turnover_time_parameters` (lines
80-81; the argparse values are plain floats, so dividing by zero there
raises, unlike the numpy expression of `compute_B0` at line 77, which
yields inf with only a warning). -/
inductive RunErr where
  | io : FileErr → RunErr
  | zeroDivision : RunErr
deriving DecidableEq

/-- The `main` pipeline (prep_MHD.py lines 188-213) after argument
parsing: it constructs the parameter object and runs the rewrite
transaction.  No validation of any numeric input occurs on this path.
The temporary file is created first, then the source is opened; each
loop iteration calls `replace_magnetic_field` (numpy `compute_B0`, never
raises) and then `replace_turnover_times`, whose unconditional call to
`compute_turnover_time_parameters` raises `ZeroDivisionError` when
`driving_scale * mach = 0` (line 80) or
`total_turn_overs * dumps_per_turnover = 0` (line 81) — so a non-empty
file aborts mid-rewrite with the original file still in place, while an
empty file never runs the loop body.  `remove` + `move` happen only
after a fully successful pass.  (At `mach_alfven = 0` the numpy division
in `compute_B0` yields inf rather than raising; that float value is
outside the real-number embedding, and the theorems below exclude it by
hypothesis.) -/
noncomputable def main_model (render : ℝ → List Char)
    (mach mach_alfven driving_scale dumps_per_turnover total_turn_overs : ℝ)
    (forcing_file : Option (List Char)) :
    Bool → Option (List (List Char)) →
      Except RunErr (List (List Char)) × Option (List (List Char))
  | false, orig => (Except.error (RunErr.io FileErr.writeFailure), orig)
  | true, none => (Except.error (RunErr.io FileErr.notFound), none)
  | true, some lines =>
    if lines ≠ [] ∧ (driving_scale * mach = 0 ∨
        total_turn_overs * dumps_per_turnover = 0) then
      (Except.error RunErr.zeroDivision, some lines)
    else
      (Except.ok (update_flash_par (paramStringsOf render mach mach_alfven
          driving_scale dumps_per_turnover total_turn_overs forcing_file) lines),
        some (update_flash_par (paramStringsOf render mach mach_alfven
          driving_scale dumps_per_turnover total_turn_overs forcing_file) lines))

/-- Renderer stub used in concrete counterexamples; the pipeline's
control flow is independent of how numbers are rendered. -/
def constRender : ℝ → List Char := fun _ => []

/-- Counterexample to C5: at mach = -1 (invalid per the claim) the
pipeline raises no error — it computes the derived quantities, rewrites
the file (here the key-bearing line `tmax\n` is changed), and succeeds.
No DomainError/InvalidInput rejection exists in the code. -/
theorem no_validation_counterexample :
    (main_model constRender (-1) 1 2 10 10 none true
        (some ["tmax\n".toList])).1 = Except.ok [[' ', '\n']] ∧
    (main_model constRender (-1) 1 2 10 10 none true
        (some ["tmax\n".toList])).2 = some [[' ', '\n']] ∧
    ([' ', '\n']) ≠ "tmax\n".toList := by
  refine ⟨?_, ?_, by decide⟩ <;>
  · simp only [main_model]
    rw [if_neg (by rintro ⟨-, h | h⟩ <;> norm_num at h)]
    rfl

/-- C5 amended: the program performs no input validation.  Negative mach
or machAlfven (with the divisors nonzero) are accepted without any
error: the derived quantities are computed from them and the file is
rewritten.  mach = 0 is not validated either: a non-empty file aborts
mid-rewrite with an uncaught ZeroDivisionError — not a pre-I/O
DomainError — leaving the original file in place. -/
theorem no_validation_proceeds :
    (∀ (render : ℝ → List Char)
        (mach mach_alfven driving_scale dumps_per_turnover total_turn_overs : ℝ)
        (forcing_file : Option (List Char)) (lines : List (List Char)),
      mach < 0 ∨ mach_alfven < 0 → mach ≠ 0 → mach_alfven ≠ 0 →
      driving_scale ≠ 0 → dumps_per_turnover ≠ 0 → total_turn_overs ≠ 0 →
      (main_model render mach mach_alfven driving_scale dumps_per_turnover
          total_turn_overs forcing_file true (some lines)).1 =
        Except.ok (update_flash_par (paramStringsOf render mach mach_alfven
          driving_scale dumps_per_turnover total_turn_overs forcing_file) lines) ∧
      (main_model render mach mach_alfven driving_scale dumps_per_turnover
          total_turn_overs forcing_file true (some lines)).2 =
        some (update_flash_par (paramStringsOf render mach mach_alfven
          driving_scale dumps_per_turnover total_turn_overs forcing_file) lines)) ∧
    (∀ (render : ℝ → List Char)
        (mach_alfven driving_scale dumps_per_turnover total_turn_overs : ℝ)
        (forcing_file : Option (List Char)) (line : List Char)
        (lines : List (List Char)),
      (main_model render 0 mach_alfven driving_scale dumps_per_turnover
          total_turn_overs forcing_file true (some (line :: lines))).1 =
        Except.error RunErr.zeroDivision ∧
      (main_model render 0 mach_alfven driving_scale dumps_per_turnover
          total_turn_overs forcing_file true (some (line :: lines))).2 =
        some (line :: lines)) := by
  constructor
  · intro render mach mach_alfven driving_scale dumps_per_turnover
      total_turn_overs forcing_file lines hneg hm ha hd hn hT
    constructor <;>
    · simp only [main_model]
      rw [if_neg (by
        rintro ⟨-, h | h⟩
        · exact mul_ne_zero hd hm h
        · exact mul_ne_zero hT hn h)]
  · intro render mach_alfven driving_scale dumps_per_turnover total_turn_overs
      forcing_file line lines
    constructor <;>
    · simp only [main_model]
      rw [if_pos ⟨by simp, Or.inl (mul_zero driving_scale)⟩]

/-- Witness for the amended C5: the accepted-negative-input part at
mach = -1 and the ZeroDivisionError part at mach = 0, both on the
one-line file `tmax\n`. -/
theorem no_validation_proceeds_witness :
    ((-1 : ℝ) < 0 ∨ (1 : ℝ) < 0) ∧
    (main_model constRender (-1) 1 2 10 10 none true
        (some ["tmax\n".toList])).1 =
      Except.ok (update_flash_par (paramStringsOf constRender (-1) 1 2 10 10 none)
        ["tmax\n".toList]) ∧
    (main_model constRender 0 1 2 10 10 none true
        (some ["tmax\n".toList])).1 = Except.error RunErr.zeroDivision :=
  ⟨Or.inl (by norm_num),
   (no_validation_proceeds.1 constRender (-1) 1 2 10 10 none ["tmax\n".toList]
     (Or.inl (by norm_num)) (by norm_num) (by norm_num) (by norm_num)
     (by norm_num) (by norm_num)).1,
   (no_validation_proceeds.2 constRender 1 2 10 10 none ("tmax\n".toList) []).1⟩

end PrepMHD
